import Mathlib

set_option autoImplicit false

/-!
Shallow embedding of `packages/plugins/apollo-usage-report/src/index.ts`:
the Apollo usage-report plugin for GraphQL Yoga.  Optional JS string values
are modelled as `Option String` (`none` is `undefined`), and JS truthiness
(`undefined` and `""` are falsy) is made explicit.  The opaque trace payload
produced by the inline-trace instrumentation is a type parameter `α`.
The external `stripIgnoredCharacters` function from the `graphql` library is
an abstract function parameter.  `fetch` is modelled by the observable
behaviour of one call (a response with an `ok` flag and a body text, or a
thrown error), and the dispatch loop's `serverContext.waitUntil` calls are
modelled as the list of detached delivery tasks it schedules.
-/

namespace ApolloUsageReport

/-- JS truthiness of an optional string value: `undefined` and `""` are falsy. -/
def truthy : Option String → Bool
  | none => false
  | some s => s != ""

/-- JS `a || b` restricted to optional string values. -/
def jsOr (a b : Option String) : Option String :=
  if truthy a then a else b

/-- Source function `getEnvVar(name, defaultValue)`:
`globalThis.process?.env?.[name] || defaultValue || undefined`.
The environment is the function `env`. -/
def getEnvVar (env : String → Option String) (name : String)
    (defaultValue : Option String) : Option String :=
  jsOr (jsOr (env name) defaultValue) none

/-- Source constant `DEFAULT_REPORTING_ENDPOINT`. -/
def DEFAULT_REPORTING_ENDPOINT : String :=
  "https://usage-reporting.api.apollographql.com/api/ingress/traces"

/-- The plugin options `{ graphRef?, apiKey?, endpoint? }` (the inline-trace
options they extend play no role in the embedded logic). -/
structure ApolloUsageReportOptions where
  graphRef : Option String := none
  apiKey : Option String := none
  endpoint : Option String := none
  deriving Repr, DecidableEq

/-- Source interface `ApolloUsageReportGraphqlContext`: the per-operation trace record.
`operationKey` and `schemaId` start unset; `trace` is the opaque payload. -/
structure ApolloUsageReportGraphqlContext (α : Type) where
  operationKey : Option String := none
  schemaId : Option String := none
  trace : α
  deriving Repr, DecidableEq

/-- The part of `context.params` read by `onEnveloped`. -/
structure GraphQLParams where
  query : Option String := none
  operationName : Option String := none
  deriving Repr, DecidableEq

/-- The credential checks of `onYogaInit`: each reads the environment variable
first (`getEnvVar(NAME, option)` is `env[NAME] || option || undefined`) and
throws when the result is falsy. -/
def onYogaInit (options : ApolloUsageReportOptions) (env : String → Option String) :
    Except String Unit :=
  if !truthy (getEnvVar env "APOLLO_KEY" options.apiKey) then
    Except.error "[ApolloUsageReport] Missing API key. Please provide one in plugin options or with \x27APOLLO_KEY\x27 environment variable."
  else if !truthy (getEnvVar env "APOLLO_GRAPH_REF" options.graphRef) then
    Except.error "[ApolloUsageReport] Missing Graph Ref. Please provide one in plugin options or with \x27APOLLO_GRAPH_REF\x27 environment variable."
  else
    Except.ok ()

/-- Source expression `context.params.query ? stripIgnoredCharacters(context.params.query) : \x27\x27`. -/
def signatureOf (stripIgnoredCharacters : String → String) (query : Option String) :
    String :=
  if truthy query then stripIgnoredCharacters (query.getD "") else ""

/-- The mutation `onEnveloped` performs on a present trace context:
`ctx.operationKey` is set to `# ${operationName || '-'}\n${signature}` and
`ctx.schemaId` to the current module-level `schemaId` (possibly still unset). -/
def envelopeTraceCtx {α : Type} (stripIgnoredCharacters : String → String)
    (schemaId : Option String) (params : GraphQLParams)
    (ctx : ApolloUsageReportGraphqlContext α) : ApolloUsageReportGraphqlContext α :=
  { ctx with
    operationKey := some ("# " ++
      (if truthy params.operationName then params.operationName.getD "" else "-") ++
      "\n" ++ signatureOf stripIgnoredCharacters params.query)
    schemaId := schemaId }

/-- Hook `onEnveloped` on the looked-up per-operation context: when the context is
absent the hook logs and returns without touching anything. -/
def onEnveloped {α : Type} (stripIgnoredCharacters : String → String)
    (schemaId : Option String) (params : GraphQLParams)
    (ctx : Option (ApolloUsageReportGraphqlContext α)) :
    Option (ApolloUsageReportGraphqlContext α) :=
  ctx.map (envelopeTraceCtx stripIgnoredCharacters schemaId params)

/-- Source type `Report[\x27tracesPerQuery\x27]`: a string-keyed record (insertion-ordered, as JS
plain objects are for these keys) mapping operation keys to `{ trace: [...] }`. -/
abbrev TracesPerQuery (α : Type) := List (String × List α)

/-- Source record `tracesPerSchema`: mapping from schema ids to `tracesPerQuery` records. -/
abbrev TracesPerSchema (α : Type) := List (String × TracesPerQuery α)

/-- Source statements `tracesPerSchema[sid][key] ||= ...; ....trace.push(tr)` restricted
to one `tracesPerQuery` record: push at an existing key, or append a fresh
singleton entry at the end (JS object insertion order). -/
def pushTrace {α : Type} : TracesPerQuery α → String → α → TracesPerQuery α
  | [], key, tr => [(key, [tr])]
  | (k, l) :: rest, key, tr =>
    if k = key then (k, l ++ [tr]) :: rest
    else (k, l) :: pushTrace rest key tr

/-- The full `tracesPerSchema[sid] ||= {}` plus inner push for one trace. -/
def pushSchema {α : Type} : TracesPerSchema α → String → String → α → TracesPerSchema α
  | [], sid, key, tr => [(sid, pushTrace [] key tr)]
  | (s, g) :: rest, sid, key, tr =>
    if s = sid then (s, pushTrace g key tr) :: rest
    else (s, g) :: pushSchema rest sid key tr

/-- The message of the `TypeError` thrown on a misformed trace. -/
def misformedTraceMessage : String :=
  "Misformed trace, missing operation key or schema id"

/-- The grouping loop of `onResultProcess`: iterate the request's trace records
in order; `if (!trace.schemaId || !trace.operationKey) throw ...` (JS falsiness:
`undefined` or `""`), otherwise push into the accumulated record. -/
def groupTracesGo {α : Type} (acc : TracesPerSchema α) :
    List (ApolloUsageReportGraphqlContext α) → Except String (TracesPerSchema α)
  | [] => Except.ok acc
  | t :: ts =>
    if truthy t.schemaId && truthy t.operationKey then
      groupTracesGo (pushSchema acc (t.schemaId.getD "") (t.operationKey.getD "") t.trace) ts
    else
      Except.error misformedTraceMessage

/-- The grouping loop started from the empty record `{}`. -/
def groupTraces {α : Type} (ts : List (ApolloUsageReportGraphqlContext α)) :
    Except String (TracesPerSchema α) :=
  groupTracesGo [] ts

/-- Log levels of the Yoga logger used by the plugin. -/
inductive LogLevel where
  | error
  | warn
  | info
  | debug
  deriving Repr, DecidableEq

/-- One logger call: level plus the message arguments. -/
structure LogEntry where
  level : LogLevel
  message : List String
  deriving Repr, DecidableEq

/-- Observable outcome of `onResultProcess`: logger calls, a thrown error (if
any), and the delivery tasks handed to `serverContext.waitUntil` in order —
scheduled detached, never awaited by the request path. -/
structure DispatchResult (α : Type) where
  logs : List LogEntry
  thrown : Option String
  scheduled : List (String × TracesPerQuery α)
  deriving Repr, DecidableEq

/-- Hook `onResultProcess`: skip streamed (async-iterable) results with a debug log;
skip requests without a tracing context with a debug log; otherwise group the
request's trace records and schedule one `sendTrace` task per schema id, in
record insertion order. -/
def onResultProcess {α : Type} (isAsyncIterableResult : Bool)
    (reqCtxTraces : Option (List (ApolloUsageReportGraphqlContext α))) :
    DispatchResult α :=
  if isAsyncIterableResult then
    { logs := [⟨LogLevel.debug, ["async iterable results not implemented for now"]⟩],
      thrown := none, scheduled := [] }
  else
    match reqCtxTraces with
    | none =>
      { logs := [⟨LogLevel.debug,
          ["operation tracing context not found, this operation will not be traced."]⟩],
        thrown := none, scheduled := [] }
    | some ts =>
      match groupTraces ts with
      | Except.error e => { logs := [], thrown := some e, scheduled := [] }
      | Except.ok tracesPerSchema =>
        { logs := [], thrown := none, scheduled := tracesPerSchema }

/-- The report header literal `{ graphRef, executableSchemaId: schemaId }`:
it has exactly these two fields. -/
structure ReportHeader where
  graphRef : Option String
  executableSchemaId : String
  deriving Repr, DecidableEq

/-- The argument of `Report.encode`: header, `operationCount` and
`tracesPerQuery`. -/
structure Report (α : Type) where
  header : ReportHeader
  operationCount : Nat
  tracesPerQuery : TracesPerQuery α
  deriving Repr, DecidableEq

/-- One `fetch` call as issued by `sendTrace`: URL, method, the three headers,
and the encoded report as body. -/
structure FetchCall (α : Type) where
  url : String
  method : String
  contentType : String
  xApiKey : Option String
  accept : String
  body : Report α
  deriving Repr, DecidableEq

/-- The behaviour of the injected `fetch` on the one call `sendTrace` makes:
a response with an `ok` flag and a body text, or a thrown error. -/
inductive FetchBehavior where
  | response (ok : Bool) (text : String)
  | throwErr (message : String)
  deriving Repr, DecidableEq

/-- Observable outcome of `sendTrace`: the fetch calls it made and the logger
calls it issued.  There is no error component: `sendTrace` never rethrows. -/
structure SendResult (α : Type) where
  calls : List (FetchCall α)
  logs : List LogEntry
  deriving Repr, DecidableEq

/-- JS destructuring default `const \x7b x = d \x7d = o`: the default applies
only when the property is `undefined` (unlike `||`, an empty string is kept). -/
def jsDefault (v : Option String) (d : Option String) : Option String :=
  match v with
  | some s => some s
  | none => d

/-- The fetch call `sendTrace` constructs: credentials resolved by destructuring
defaults (`graphRef = getEnvVar('APOLLO_GRAPH_REF')`, `apiKey =
getEnvVar('APOLLO_KEY')`, `endpoint = DEFAULT_REPORTING_ENDPOINT`), report body
`\x7b header: \x7b graphRef, executableSchemaId: schemaId \x7d, operationCount: 1,
tracesPerQuery \x7d`. -/
def sendTraceFetchCall {α : Type} (options : ApolloUsageReportOptions)
    (env : String → Option String) (schemaId : String)
    (tracesPerQuery : TracesPerQuery α) : FetchCall α :=
  { url := match options.endpoint with
      | some e => e
      | none => DEFAULT_REPORTING_ENDPOINT
    method := "POST"
    contentType := "application/protobuf"
    xApiKey := jsDefault options.apiKey (getEnvVar env "APOLLO_KEY" none)
    accept := "application/json"
    body :=
      { header :=
          { graphRef := jsDefault options.graphRef (getEnvVar env "APOLLO_GRAPH_REF" none)
            executableSchemaId := schemaId }
        operationCount := 1
        tracesPerQuery := tracesPerQuery } }

/-- The `try` body of `sendTrace` after the fetch: `response.ok` logs the body
text at debug level, otherwise at error level; a thrown fetch error escapes the
body (to be caught by the surrounding `catch`). -/
def sendTraceTry (fetchBehavior : FetchBehavior) : Except String (List LogEntry) :=
  match fetchBehavior with
  | FetchBehavior.response true text => Except.ok [⟨LogLevel.debug, ["Traces sent:", text]⟩]
  | FetchBehavior.response false text =>
    Except.ok [⟨LogLevel.error, ["Failed to send trace:", text]⟩]
  | FetchBehavior.throwErr e => Except.error e

/-- Function `sendTrace`: build the report, make exactly one fetch call, and handle its
outcome; the `catch` turns any thrown error into an error log, so the function
is total and never propagates a failure. -/
def sendTrace {α : Type} (options : ApolloUsageReportOptions)
    (env : String → Option String) (fetchBehavior : FetchBehavior)
    (schemaId : String) (tracesPerQuery : TracesPerQuery α) : SendResult α :=
  let call := sendTraceFetchCall options env schemaId tracesPerQuery
  match sendTraceTry fetchBehavior with
  | Except.ok logs => { calls := [call], logs := logs }
  | Except.error err =>
    { calls := [call], logs := [⟨LogLevel.error, ["Failed to send trace:", err]⟩] }

/-- Association-list lookup (JS `Map.get` / record indexing). -/
def alistFind {κ β : Type} [DecidableEq κ] : List (κ × β) → κ → Option β
  | [], _ => none
  | (k, v) :: rest, key => if k = key then some v else alistFind rest key

/-- Association-list update (JS `Map.set`): overwrite in place, or append. -/
def alistSet {κ β : Type} [DecidableEq κ] : List (κ × β) → κ → β → List (κ × β)
  | [], k, v => [(k, v)]
  | (k', v') :: rest, k, v =>
    if k' = k then (k', v) :: rest else (k', v') :: alistSet rest k v

/-- Events affecting the collector's state, in the order the runtime delivers
them.  `traceCreated` is the upstream inline-trace plugin creating the
per-operation context; `schemaActivated h` is the resolution of the
`hashSHA256(printSchema(schema)).then(id => schemaId = id)` promise of
`onSchemaChange`, carrying the computed hash; `enveloped` is the `onEnveloped`
hook running for an operation. -/
inductive CollectorEvent (α : Type) where
  | traceCreated (op : ℕ) (payload : α)
  | schemaActivated (hash : String)
  | enveloped (op : ℕ) (params : GraphQLParams)
  deriving Repr, DecidableEq

/-- Whether an event is a schema activation. -/
def isSchemaActivation {α : Type} : CollectorEvent α → Bool
  | CollectorEvent.schemaActivated _ => true
  | _ => false

/-- The collector's mutable state: the module-level `schemaId` (declared
`let schemaId: string;`, so initially `undefined`) and the per-operation trace
contexts, keyed by operation identity. -/
structure CollectorState (α : Type) where
  schemaId : Option String
  traces : List (ℕ × ApolloUsageReportGraphqlContext α)
  deriving Repr, DecidableEq

/-- The initial collector state: no schema id resolved yet, no traces. -/
def initialCollectorState {α : Type} : CollectorState α :=
  { schemaId := none, traces := [] }

/-- One collector transition.  `enveloped` looks the context up and, when it is
present, applies the `onEnveloped` mutation with the current `schemaId`;
otherwise it only logs and leaves the state unchanged. -/
def collectorStep {α : Type} (stripIgnoredCharacters : String → String)
    (st : CollectorState α) : CollectorEvent α → CollectorState α
  | CollectorEvent.traceCreated o payload =>
    { st with traces := alistSet st.traces o { trace := payload } }
  | CollectorEvent.schemaActivated h => { st with schemaId := some h }
  | CollectorEvent.enveloped o params =>
    match alistFind st.traces o with
    | none => st
    | some c =>
      { st with traces :=
          alistSet st.traces o (envelopeTraceCtx stripIgnoredCharacters st.schemaId params c) }

/-- Run the collector from its initial state over a list of events. -/
def collectorRun {α : Type} (stripIgnoredCharacters : String → String)
    (es : List (CollectorEvent α)) : CollectorState α :=
  es.foldl (collectorStep stripIgnoredCharacters) initialCollectorState

/-- The hash carried by the most recent schema activation of the list, if any. -/
def lastActivation {α : Type} (es : List (CollectorEvent α)) : Option String :=
  es.foldl
    (fun acc e =>
      match e with
      | CollectorEvent.schemaActivated h => some h
      | _ => acc)
    none

/-- Append a batch to an optional list, where `none` stands for an entry that
was never created: the entry exists afterwards exactly when something was ever
pushed into it. -/
def optAppend {α : Type} (o : Option (List α)) (l : List α) : Option (List α) :=
  match o with
  | some l0 => some (l0 ++ l)
  | none => if l.isEmpty then none else some l

/-- Total number of trace payloads stored in a `tracesPerQuery` record. -/
def totalTraces {α : Type} (g : TracesPerQuery α) : ℕ :=
  (g.map (fun p => p.2.length)).sum

/-- The payloads of the records of `ts` whose `operationKey` is `some k`,
in order. -/
def tracesWithKey {α : Type} (k : String)
    (ts : List (ApolloUsageReportGraphqlContext α)) : List α :=
  (ts.filter (fun t => t.operationKey = some k)).map
    (fun t => t.trace)

/-- Append a key at the end unless it is already present (the key order of a
JS record built by `m[k] ||= ...`). -/
def insertIfAbsent (ks : List String) (s : String) : List String :=
  if s ∈ ks then ks else ks ++ [s]

lemma optAppend_optAppend {α : Type} (o : Option (List α)) (l1 l2 : List α) :
    optAppend (optAppend o l1) l2 = optAppend o (l1 ++ l2) := by
  cases o with
  | some l0 => simp [optAppend]
  | none =>
    cases l1 with
    | nil => simp [optAppend]
    | cons a l1 => simp [optAppend]

lemma optAppend_nil {α : Type} (o : Option (List α)) : optAppend o [] = o := by
  cases o <;> simp [optAppend]

lemma alistFind_pushTrace {α : Type} (g : TracesPerQuery α) (key : String) (tr : α)
    (k : String) :
    alistFind (pushTrace g key tr) k =
      if k = key then optAppend (alistFind g key) [tr] else alistFind g k := by
  induction g with
  | nil =>
    by_cases h : k = key
    · simp [pushTrace, alistFind, optAppend, h]
    · simp [pushTrace, alistFind, optAppend, h, Ne.symm h]
  | cons p g ih =>
    obtain ⟨k', l⟩ := p
    by_cases h1 : k' = key
    · subst h1
      by_cases h2 : k = k'
      · subst h2
        simp [pushTrace, alistFind, optAppend]
      · simp [pushTrace, alistFind, optAppend, h2, Ne.symm h2]
    · by_cases h2 : k' = k
      · subst h2
        have h3 : ¬(k' = key) := h1
        simp [pushTrace, alistFind, h1, Ne.symm h3]
      · simp [pushTrace, alistFind, h1, h2, ih]

lemma totalTraces_pushTrace {α : Type} (g : TracesPerQuery α) (key : String) (tr : α) :
    totalTraces (pushTrace g key tr) = totalTraces g + 1 := by
  induction g with
  | nil => simp [pushTrace, totalTraces]
  | cons p g ih =>
    obtain ⟨k', l⟩ := p
    by_cases h : k' = key
    · simp [pushTrace, h, totalTraces]
      omega
    · simp [pushTrace, h, totalTraces] at ih ⊢
      omega

lemma totalTraces_groupFold {α : Type} (ts : List (ApolloUsageReportGraphqlContext α))
    (g : TracesPerQuery α) :
    totalTraces (ts.foldl (fun g t => pushTrace g (t.operationKey.getD "") t.trace) g) =
      totalTraces g + ts.length := by
  induction ts generalizing g with
  | nil => simp
  | cons t ts ih =>
    simp only [List.foldl_cons, List.length_cons, ih, totalTraces_pushTrace]
    omega

lemma alistFind_groupFold {α : Type} (ts : List (ApolloUsageReportGraphqlContext α))
    (g : TracesPerQuery α) (k : String)
    (hk : ∀ t ∈ ts, truthy t.operationKey = true) :
    alistFind (ts.foldl (fun g t => pushTrace g (t.operationKey.getD "") t.trace) g) k =
      optAppend (alistFind g k) (tracesWithKey k ts) := by
  induction ts generalizing g with
  | nil => simp [tracesWithKey, optAppend_nil]
  | cons t ts ih =>
    have hkt := hk t (List.mem_cons_self t ts)
    obtain ⟨k0, hk0⟩ : ∃ k0, t.operationKey = some k0 := by
      cases h : t.operationKey with
      | none => rw [h] at hkt; simp [truthy] at hkt
      | some v => exact ⟨v, rfl⟩
    have hrest : ∀ t' ∈ ts, truthy t'.operationKey = true :=
      fun t' ht' => hk t' (List.mem_cons_of_mem t ht')
    by_cases hkk : k0 = k
    · subst hkk
      simp only [List.foldl_cons, ih _ hrest, hk0, Option.getD_some, alistFind_pushTrace,
        eq_self_iff_true, if_true]
      rw [optAppend_optAppend]
      simp [tracesWithKey, hk0]
    · simp only [List.foldl_cons, ih _ hrest, hk0, Option.getD_some, alistFind_pushTrace,
        if_neg (Ne.symm hkk)]
      simp [tracesWithKey, hk0, hkk]

lemma pushSchema_singleton {α : Type} (s : String) (g : TracesPerQuery α)
    (key : String) (tr : α) :
    pushSchema [(s, g)] s key tr = [(s, pushTrace g key tr)] := by
  simp [pushSchema]

lemma groupTracesGo_single {α : Type} (s : String) (hsne : s ≠ "")
    (ts : List (ApolloUsageReportGraphqlContext α)) (g : TracesPerQuery α)
    (hall : ∀ t ∈ ts, t.schemaId = some s ∧ truthy t.operationKey = true) :
    groupTracesGo [(s, g)] ts =
      Except.ok [(s, ts.foldl (fun g t => pushTrace g (t.operationKey.getD "") t.trace) g)] := by
  induction ts generalizing g with
  | nil => simp [groupTracesGo]
  | cons t ts ih =>
    obtain ⟨hsid, hkey⟩ := hall t (List.mem_cons_self t ts)
    have hrest : ∀ t' ∈ ts, t'.schemaId = some s ∧ truthy t'.operationKey = true :=
      fun t' ht' => hall t' (List.mem_cons_of_mem t ht')
    have hcond : (truthy t.schemaId && truthy t.operationKey) = true := by
      rw [hkey, hsid]
      simp [truthy, hsne]
    simp only [groupTracesGo]
    rw [if_pos hcond, hsid]
    simp only [Option.getD_some, pushSchema_singleton, List.foldl_cons]
    exact ih _ hrest

lemma groupTracesGo_error_of_misformed {α : Type}
    (ts : List (ApolloUsageReportGraphqlContext α)) (acc : TracesPerSchema α)
    (h : ∃ t ∈ ts, truthy t.schemaId = false ∨ truthy t.operationKey = false) :
    groupTracesGo acc ts = Except.error misformedTraceMessage := by
  induction ts generalizing acc with
  | nil => simp at h
  | cons t ts ih =>
    by_cases hc : (truthy t.schemaId && truthy t.operationKey) = true
    · obtain ⟨t', ht', hbad⟩ := h
      rcases List.mem_cons.1 ht' with rfl | hmem
      · rw [Bool.and_eq_true] at hc
        rcases hbad with hb | hb <;> simp [hb] at hc
      · simp only [groupTracesGo]
        rw [if_pos hc]
        exact ih _ ⟨t', hmem, hbad⟩
    · simp only [groupTracesGo]
      rw [if_neg hc]

lemma groupTracesGo_ok_of_wellformed {α : Type}
    (ts : List (ApolloUsageReportGraphqlContext α)) (acc : TracesPerSchema α)
    (h : ∀ t ∈ ts, truthy t.schemaId = true ∧ truthy t.operationKey = true) :
    ∃ m, groupTracesGo acc ts = Except.ok m := by
  induction ts generalizing acc with
  | nil => exact ⟨acc, rfl⟩
  | cons t ts ih =>
    obtain ⟨h1, h2⟩ := h t (List.mem_cons_self t ts)
    have hc : (truthy t.schemaId && truthy t.operationKey) = true := by
      rw [h1, h2]
      rfl
    simp only [groupTracesGo]
    rw [if_pos hc]
    exact ih _ (fun t' ht' => h t' (List.mem_cons_of_mem t ht'))

lemma pushSchema_keys {α : Type} (m : TracesPerSchema α) (sid key : String) (tr : α) :
    (pushSchema m sid key tr).map Prod.fst = insertIfAbsent (m.map Prod.fst) sid := by
  induction m with
  | nil => simp [pushSchema, insertIfAbsent]
  | cons p m ih =>
    obtain ⟨s, g⟩ := p
    by_cases h : s = sid
    · subst h
      simp [pushSchema, insertIfAbsent]
    · have hne : sid ≠ s := Ne.symm h
      by_cases h2 : sid ∈ m.map Prod.fst
      · simp [pushSchema, h, ih, insertIfAbsent, h2, hne]
      · simp [pushSchema, h, ih, insertIfAbsent, h2, hne]

lemma groupTracesGo_keys {α : Type} (ts : List (ApolloUsageReportGraphqlContext α))
    (acc : TracesPerSchema α) (m : TracesPerSchema α)
    (h : groupTracesGo acc ts = Except.ok m) :
    m.map Prod.fst =
      ts.foldl (fun ks t => insertIfAbsent ks (t.schemaId.getD "")) (acc.map Prod.fst) := by
  induction ts generalizing acc with
  | nil =>
    simp only [groupTracesGo, Except.ok.injEq] at h
    subst h
    rfl
  | cons t ts ih =>
    by_cases hc : (truthy t.schemaId && truthy t.operationKey) = true
    · simp only [groupTracesGo] at h
      rw [if_pos hc] at h
      rw [List.foldl_cons, ← pushSchema_keys acc (t.schemaId.getD "") (t.operationKey.getD "") t.trace]
      exact ih _ h
    · simp only [groupTracesGo] at h
      rw [if_neg hc] at h
      exact absurd h (by simp)

lemma mem_insertIfAbsent (ks : List String) (a s : String) :
    s ∈ insertIfAbsent ks a ↔ s ∈ ks ∨ s = a := by
  unfold insertIfAbsent
  by_cases h : a ∈ ks
  · rw [if_pos h]
    constructor
    · exact Or.inl
    · rintro (hs | rfl)
      · exact hs
      · exact h
  · rw [if_neg h]
    simp

lemma mem_foldl_insertIfAbsent (l : List String) (ks : List String) (s : String) :
    s ∈ l.foldl insertIfAbsent ks ↔ s ∈ ks ∨ s ∈ l := by
  induction l generalizing ks with
  | nil => simp
  | cons a l ih =>
    rw [List.foldl_cons, ih, mem_insertIfAbsent]
    simp [or_assoc]

lemma nodup_insertIfAbsent (ks : List String) (a : String) (h : ks.Nodup) :
    (insertIfAbsent ks a).Nodup := by
  unfold insertIfAbsent
  by_cases hm : a ∈ ks
  · rw [if_pos hm]
    exact h
  · rw [if_neg hm]
    simp [List.nodup_append, h, hm]

lemma nodup_foldl_insertIfAbsent (l : List String) (ks : List String) (h : ks.Nodup) :
    (l.foldl insertIfAbsent ks).Nodup := by
  induction l generalizing ks with
  | nil => exact h
  | cons a l ih => exact ih _ (nodup_insertIfAbsent _ _ h)

lemma alistFind_alistSet_self {κ β : Type} [DecidableEq κ] (l : List (κ × β))
    (k : κ) (v : β) : alistFind (alistSet l k v) k = some v := by
  induction l with
  | nil => simp [alistSet, alistFind]
  | cons p l ih =>
    obtain ⟨k', v'⟩ := p
    by_cases h : k' = k
    · subst h
      simp [alistSet, alistFind]
    · simp [alistSet, alistFind, h, ih]

lemma collectorStep_schemaId {α : Type} (stripIgnoredCharacters : String → String)
    (st : CollectorState α) (e : CollectorEvent α) :
    (collectorStep stripIgnoredCharacters st e).schemaId =
      (match e with
       | CollectorEvent.schemaActivated h => some h
       | _ => st.schemaId) := by
  cases e with
  | traceCreated o payload => rfl
  | schemaActivated h => rfl
  | enveloped o params =>
    simp only [collectorStep]
    cases alistFind st.traces o <;> rfl

lemma foldl_collectorStep_schemaId {α : Type} (stripIgnoredCharacters : String → String)
    (es : List (CollectorEvent α)) (st : CollectorState α) :
    (es.foldl (collectorStep stripIgnoredCharacters) st).schemaId =
      es.foldl
        (fun acc e =>
          match e with
          | CollectorEvent.schemaActivated h => some h
          | _ => acc)
        st.schemaId := by
  induction es generalizing st with
  | nil => rfl
  | cons e es ih =>
    rw [List.foldl_cons, List.foldl_cons, ih, collectorStep_schemaId]

lemma collectorRun_schemaId {α : Type} (stripIgnoredCharacters : String → String)
    (es : List (CollectorEvent α)) :
    (collectorRun stripIgnoredCharacters es).schemaId = lastActivation es :=
  foldl_collectorStep_schemaId stripIgnoredCharacters es initialCollectorState

lemma foldl_activations_traces {α : Type} (stripIgnoredCharacters : String → String)
    (es : List (CollectorEvent α)) (st : CollectorState α)
    (h : ∀ e ∈ es, isSchemaActivation e = true) :
    (es.foldl (collectorStep stripIgnoredCharacters) st).traces = st.traces := by
  induction es generalizing st with
  | nil => rfl
  | cons e es ih =>
    have he := h e (List.mem_cons_self e es)
    obtain ⟨hh, rfl⟩ : ∃ hh, e = CollectorEvent.schemaActivated hh := by
      cases e with
      | traceCreated o payload => simp [isSchemaActivation] at he
      | schemaActivated hh => exact ⟨hh, rfl⟩
      | enveloped o params => simp [isSchemaActivation] at he
    rw [List.foldl_cons, ih _ (fun e' he' => h e' (List.mem_cons_of_mem _ he'))]
    rfl

lemma collectorStep_enveloped_find {α : Type} (stripIgnoredCharacters : String → String)
    (st : CollectorState α) (o : ℕ) (params : GraphQLParams)
    (c : ApolloUsageReportGraphqlContext α) (h : alistFind st.traces o = some c) :
    alistFind (collectorStep stripIgnoredCharacters st (CollectorEvent.enveloped o params)).traces o =
      some (envelopeTraceCtx stripIgnoredCharacters st.schemaId params c) := by
  simp only [collectorStep, h]
  exact alistFind_alistSet_self _ _ _

lemma foldl_lastActivation_of_no_activation {α : Type} :
    ∀ (es : List (CollectorEvent α)) (a : Option String),
      (∀ e ∈ es, isSchemaActivation e = false) →
      es.foldl
        (fun acc e =>
          match e with
          | CollectorEvent.schemaActivated hh => some hh
          | _ => acc)
        a = a
  | [], _, _ => rfl
  | e :: es, a, h => by
    have he := h e (List.mem_cons_self e es)
    have hrest : ∀ e' ∈ es, isSchemaActivation e' = false :=
      fun e' he' => h e' (List.mem_cons_of_mem _ he')
    cases e with
    | traceCreated o payload =>
      rw [List.foldl_cons]
      exact foldl_lastActivation_of_no_activation es a hrest
    | schemaActivated hh => simp [isSchemaActivation] at he
    | enveloped o params =>
      rw [List.foldl_cons]
      exact foldl_lastActivation_of_no_activation es a hrest

lemma lastActivation_of_no_activation {α : Type} (es : List (CollectorEvent α))
    (h : ∀ e ∈ es, isSchemaActivation e = false) : lastActivation es = none :=
  foldl_lastActivation_of_no_activation es none h

/-- Claim C5: when the result is a streamed (async-iterable) response,
`onResultProcess` skips dispatch entirely — regardless of whether trace
contexts exist for the request, no delivery task is scheduled and nothing is
thrown — and the skip is logged at debug level. -/
theorem streamed_results_skip_dispatch {α : Type}
    (reqCtxTraces : Option (List (ApolloUsageReportGraphqlContext α))) :
    onResultProcess true reqCtxTraces =
      { logs := [⟨LogLevel.debug, ["async iterable results not implemented for now"]⟩],
        thrown := none, scheduled := [] } := by
  rfl

/-- Claim C3: a trace record reaching dispatch with a missing `operationKey`
or a missing `schemaId` makes `onResultProcess` throw the misformed-trace
`TypeError` rather than silently skip the record, and nothing is scheduled. -/
theorem dispatch_raises_on_missing_key_or_schema {α : Type}
    (ts : List (ApolloUsageReportGraphqlContext α))
    (t : ApolloUsageReportGraphqlContext α) (ht : t ∈ ts)
    (hmiss : t.schemaId = none ∨ t.operationKey = none) :
    (onResultProcess false (some ts)).thrown = some misformedTraceMessage ∧
    (onResultProcess false (some ts)).scheduled = [] := by
  have hbad : truthy t.schemaId = false ∨ truthy t.operationKey = false := by
    rcases hmiss with h | h
    · left
      rw [h]
      rfl
    · right
      rw [h]
      rfl
  have herr := groupTracesGo_error_of_misformed ts [] ⟨t, ht, hbad⟩
  constructor <;> simp [onResultProcess, groupTraces, herr]

/-- Witness for C3 at a concrete record with an `operationKey` but no
`schemaId`: dispatch throws and schedules nothing. -/
theorem dispatch_raises_on_missing_key_or_schema_witness :
    (onResultProcess false
        (some [({ operationKey := some "# q\nq", schemaId := none, trace := (0 : ℕ) } :
          ApolloUsageReportGraphqlContext ℕ)])).thrown = some misformedTraceMessage ∧
    (onResultProcess false
        (some [({ operationKey := some "# q\nq", schemaId := none, trace := (0 : ℕ) } :
          ApolloUsageReportGraphqlContext ℕ)])).scheduled = [] :=
  dispatch_raises_on_missing_key_or_schema _ _ (List.mem_singleton.mpr rfl) (Or.inl rfl)

/-- Claim C1: when all N trace records of a request share the same (non-empty)
`schemaId` and every record has its `operationKey` populated, dispatch builds
exactly one per-schema group for that schema id, containing all N payloads
grouped by `operationKey`: under each key sits the single appended list of the
payloads of the records with exactly that key, in order. -/
theorem dispatch_single_schema_one_group {α : Type} (s : String)
    (ts : List (ApolloUsageReportGraphqlContext α)) (hne : ts ≠ []) (hsne : s ≠ "")
    (hall : ∀ t ∈ ts, t.schemaId = some s ∧ truthy t.operationKey = true) :
    ∃ g : TracesPerQuery α,
      (onResultProcess false (some ts)).scheduled = [(s, g)] ∧
      (onResultProcess false (some ts)).thrown = none ∧
      totalTraces g = ts.length ∧
      ∀ k : String, alistFind g k = optAppend none (tracesWithKey k ts) := by
  cases ts with
  | nil => exact absurd rfl hne
  | cons t ts' =>
    obtain ⟨hsid, hkey⟩ := hall t (List.mem_cons_self t ts')
    have hrest : ∀ t' ∈ ts', t'.schemaId = some s ∧ truthy t'.operationKey = true :=
      fun t' ht' => hall t' (List.mem_cons_of_mem t ht')
    have hcond : (truthy t.schemaId && truthy t.operationKey) = true := by
      rw [hkey, hsid]
      simp [truthy, hsne]
    have hgo : groupTraces (t :: ts') = Except.ok
        [(s, (t :: ts').foldl (fun g t => pushTrace g (t.operationKey.getD "") t.trace) [])] := by
      unfold groupTraces
      simp only [groupTracesGo]
      rw [if_pos hcond, hsid]
      simp only [Option.getD_some]
      have hps : pushSchema ([] : TracesPerSchema α) s (t.operationKey.getD "") t.trace =
          [(s, pushTrace [] (t.operationKey.getD "") t.trace)] := rfl
      rw [hps, groupTracesGo_single s hsne ts' _ hrest, List.foldl_cons]
    refine ⟨(t :: ts').foldl (fun g t => pushTrace g (t.operationKey.getD "") t.trace) [],
      ?_, ?_, ?_, ?_⟩
    · simp [onResultProcess, hgo]
    · simp [onResultProcess, hgo]
    · rw [totalTraces_groupFold]
      simp [totalTraces]
    · intro k
      rw [alistFind_groupFold _ _ _ (fun t' ht' => (hall t' ht').2)]
      rfl

/-- Witness for C1: two records with the same schema id, one shared operation
key between the first and third payload. -/
theorem dispatch_single_schema_one_group_witness :
    ∃ g : TracesPerQuery ℕ,
      (onResultProcess false
          (some [({ operationKey := some "# A\nA", schemaId := some "abc123", trace := 10 } :
              ApolloUsageReportGraphqlContext ℕ),
            { operationKey := some "# B\nB", schemaId := some "abc123", trace := 20 },
            { operationKey := some "# A\nA", schemaId := some "abc123", trace := 30 }])).scheduled =
        [("abc123", g)] ∧
      (onResultProcess false
          (some [({ operationKey := some "# A\nA", schemaId := some "abc123", trace := 10 } :
              ApolloUsageReportGraphqlContext ℕ),
            { operationKey := some "# B\nB", schemaId := some "abc123", trace := 20 },
            { operationKey := some "# A\nA", schemaId := some "abc123", trace := 30 }])).thrown =
        none ∧
      totalTraces g =
        ([({ operationKey := some "# A\nA", schemaId := some "abc123", trace := 10 } :
            ApolloUsageReportGraphqlContext ℕ),
          { operationKey := some "# B\nB", schemaId := some "abc123", trace := 20 },
          { operationKey := some "# A\nA", schemaId := some "abc123", trace := 30 }] :
            List (ApolloUsageReportGraphqlContext ℕ)).length ∧
      ∀ k : String, alistFind g k = optAppend none (tracesWithKey k
        [({ operationKey := some "# A\nA", schemaId := some "abc123", trace := 10 } :
            ApolloUsageReportGraphqlContext ℕ),
          { operationKey := some "# B\nB", schemaId := some "abc123", trace := 20 },
          { operationKey := some "# A\nA", schemaId := some "abc123", trace := 30 }]) :=
  dispatch_single_schema_one_group "abc123" _ (by decide) (by decide) (by decide)

/-- Claim C4: a dispatched request whose well-formed trace records span K
distinct schema ids schedules exactly K delivery tasks: the scheduled list
carries pairwise-distinct schema ids, one for exactly each schema id occurring
among the records, and each task's one fetch call puts its own schema id into
the report header.  The tasks appear in `scheduled` — the list handed to
`serverContext.waitUntil` — so the request path hands them off without
awaiting them. -/
theorem dispatch_one_task_per_schema {α : Type}
    (options : ApolloUsageReportOptions) (env : String → Option String)
    (fetchBehavior : FetchBehavior)
    (ts : List (ApolloUsageReportGraphqlContext α))
    (hw : ∀ t ∈ ts, truthy t.schemaId = true ∧ truthy t.operationKey = true) :
    (onResultProcess false (some ts)).thrown = none ∧
    ((onResultProcess false (some ts)).scheduled.map Prod.fst).Nodup ∧
    (∀ s : String,
      s ∈ (onResultProcess false (some ts)).scheduled.map Prod.fst ↔
        ∃ t ∈ ts, t.schemaId = some s) ∧
    ∀ p ∈ (onResultProcess false (some ts)).scheduled,
      (sendTrace options env fetchBehavior p.1 p.2).calls.map
        (fun c => c.body.header.executableSchemaId) = [p.1] := by
  obtain ⟨m, hm⟩ := groupTracesGo_ok_of_wellformed ts [] hw
  have hres : onResultProcess false (some ts) =
      { logs := [], thrown := none, scheduled := m } := by
    simp [onResultProcess, groupTraces, hm]
  have hkeys : m.map Prod.fst =
      (ts.map (fun t => t.schemaId.getD "")).foldl insertIfAbsent [] := by
    rw [groupTracesGo_keys ts [] m hm, List.foldl_map]
    rfl
  refine ⟨by rw [hres], ?_, ?_, ?_⟩
  · rw [hres]
    rw [hkeys]
    exact nodup_foldl_insertIfAbsent _ _ List.nodup_nil
  · intro s
    rw [hres]
    rw [hkeys, mem_foldl_insertIfAbsent]
    simp only [List.not_mem_nil, false_or, List.mem_map]
    constructor
    · rintro ⟨t, ht, rfl⟩
      obtain ⟨v, hv⟩ : ∃ v, t.schemaId = some v := by
        cases h : t.schemaId with
        | none =>
          have := (hw t ht).1
          rw [h] at this
          simp [truthy] at this
        | some v => exact ⟨v, rfl⟩
      exact ⟨t, ht, by rw [hv]; rfl⟩
    · rintro ⟨t, ht, hv⟩
      exact ⟨t, ht, by rw [hv]; rfl⟩
  · intro p hp
    cases fetchBehavior with
    | response ok text => cases ok <;> rfl
    | throwErr e => rfl

/-- Witness for C4: three well-formed records spanning two schema ids yield
two scheduled tasks, one per schema id, each delivering a report whose header
carries its own schema id. -/
theorem dispatch_one_task_per_schema_witness :
    (onResultProcess false
        (some [({ operationKey := some "# A\nA", schemaId := some "s1", trace := 1 } :
            ApolloUsageReportGraphqlContext ℕ),
          { operationKey := some "# B\nB", schemaId := some "s2", trace := 2 },
          { operationKey := some "# C\nC", schemaId := some "s1", trace := 3 }])).thrown = none ∧
    ((onResultProcess false
        (some [({ operationKey := some "# A\nA", schemaId := some "s1", trace := 1 } :
            ApolloUsageReportGraphqlContext ℕ),
          { operationKey := some "# B\nB", schemaId := some "s2", trace := 2 },
          { operationKey := some "# C\nC", schemaId := some "s1", trace := 3 }])).scheduled.map
        Prod.fst).Nodup ∧
    (∀ s : String,
      s ∈ (onResultProcess false
          (some [({ operationKey := some "# A\nA", schemaId := some "s1", trace := 1 } :
              ApolloUsageReportGraphqlContext ℕ),
            { operationKey := some "# B\nB", schemaId := some "s2", trace := 2 },
            { operationKey := some "# C\nC", schemaId := some "s1", trace := 3 }])).scheduled.map
          Prod.fst ↔
        ∃ t ∈ [({ operationKey := some "# A\nA", schemaId := some "s1", trace := 1 } :
              ApolloUsageReportGraphqlContext ℕ),
            { operationKey := some "# B\nB", schemaId := some "s2", trace := 2 },
            { operationKey := some "# C\nC", schemaId := some "s1", trace := 3 }],
          t.schemaId = some s) ∧
    ∀ p ∈ (onResultProcess false
        (some [({ operationKey := some "# A\nA", schemaId := some "s1", trace := 1 } :
            ApolloUsageReportGraphqlContext ℕ),
          { operationKey := some "# B\nB", schemaId := some "s2", trace := 2 },
          { operationKey := some "# C\nC", schemaId := some "s1", trace := 3 }])).scheduled,
      (sendTrace { graphRef := some "my-graph@prod" } (fun _ => none)
          (FetchBehavior.response true "ok") p.1 p.2).calls.map
        (fun c => c.body.header.executableSchemaId) = [p.1] :=
  dispatch_one_task_per_schema { graphRef := some "my-graph@prod" } (fun _ => none)
    (FetchBehavior.response true "ok") _ (by decide)

/-- Claim C6: for an operation with a present trace context and a present
non-empty query text, `onEnveloped` sets the record's `operationKey` to the
string `"# "` followed by the operation name — or `"-"` when no usable
operation name is given — then a newline, then the query text as normalized by
the external `stripIgnoredCharacters`. -/
theorem onEnveloped_operationKey {α : Type} (stripIgnoredCharacters : String → String)
    (schemaId : Option String) (params : GraphQLParams)
    (c : ApolloUsageReportGraphqlContext α) (q : String)
    (hq : params.query = some q) (hqne : q ≠ "") :
    ∃ c', onEnveloped stripIgnoredCharacters schemaId params (some c) = some c' ∧
      c'.operationKey = some ("# " ++
        (match params.operationName with
         | some n => if n = "" then "-" else n
         | none => "-") ++ "\n" ++ stripIgnoredCharacters q) := by
  refine ⟨envelopeTraceCtx stripIgnoredCharacters schemaId params c, rfl, ?_⟩
  have hsig : signatureOf stripIgnoredCharacters params.query = stripIgnoredCharacters q := by
    rw [hq]
    simp [signatureOf, truthy, hqne]
  show some ("# " ++
      (if truthy params.operationName then params.operationName.getD "" else "-") ++
      "\n" ++ signatureOf stripIgnoredCharacters params.query) = _
  rw [hsig]
  congr 3
  cases hn : params.operationName with
  | none => rfl
  | some n =>
    by_cases hne : n = ""
    · subst hne
      rfl
    · simp [truthy, hne]

/-- Witness for C6: named operation `GetUser`, identity normalizer. -/
theorem onEnveloped_operationKey_witness :
    ∃ c', onEnveloped (fun s => s) (some "abc123")
        { query := some "query GetUser", operationName := some "GetUser" }
        (some ({ trace := (7 : ℕ) } : ApolloUsageReportGraphqlContext ℕ)) = some c' ∧
      c'.operationKey = some ("# " ++
        (match (({ query := some "query GetUser", operationName := some "GetUser" } :
            GraphQLParams)).operationName with
         | some n => if n = "" then "-" else n
         | none => "-") ++ "\n" ++ (fun s => s) "query GetUser") :=
  onEnveloped_operationKey (fun s => s) (some "abc123")
    { query := some "query GetUser", operationName := some "GetUser" }
    { trace := (7 : ℕ) } "query GetUser" rfl (by decide)

/-- Claim C7: a delivery attempt makes exactly one fetch call and never
retries; a non-success HTTP response gets its body text logged at error level
and nothing is raised; a transport-level throw — which does escape the `try`
body — is caught and logged at error level; in every case `sendTrace` returns
normally, so no exception escapes the detached delivery task. -/
theorem sendTrace_never_raises {α : Type} (options : ApolloUsageReportOptions)
    (env : String → Option String) (schemaId : String)
    (tracesPerQuery : TracesPerQuery α) :
    (∀ text : String,
      (sendTrace (α := α) options env (FetchBehavior.response false text)
          schemaId tracesPerQuery).logs =
        [⟨LogLevel.error, ["Failed to send trace:", text]⟩]) ∧
    (∀ message : String,
      sendTraceTry (FetchBehavior.throwErr message) = Except.error message ∧
      (sendTrace (α := α) options env (FetchBehavior.throwErr message)
          schemaId tracesPerQuery).logs =
        [⟨LogLevel.error, ["Failed to send trace:", message]⟩]) ∧
    ∀ fetchBehavior : FetchBehavior,
      (sendTrace (α := α) options env fetchBehavior schemaId tracesPerQuery).calls.length = 1 := by
  refine ⟨fun text => rfl, fun message => ⟨rfl, rfl⟩, fun fb => ?_⟩
  cases fb with
  | response ok text => cases ok <;> rfl
  | throwErr e => rfl

/-- Claim C8: every encoded report consists of a header with exactly the
fields `graphRef` (the resolved graph ref) and `executableSchemaId` (the
group's schema id), an `operationCount` equal to 1, and the grouped traces as
its `tracesPerQuery` mapping from operation key to trace payload list. -/
theorem sendTrace_report_shape {α : Type} (options : ApolloUsageReportOptions)
    (env : String → Option String) (fetchBehavior : FetchBehavior)
    (schemaId : String) (tracesPerQuery : TracesPerQuery α) :
    ∃ call : FetchCall α,
      (sendTrace options env fetchBehavior schemaId tracesPerQuery).calls = [call] ∧
      call.body.header =
        { graphRef := jsDefault options.graphRef (getEnvVar env "APOLLO_GRAPH_REF" none),
          executableSchemaId := schemaId } ∧
      call.body.operationCount = 1 ∧
      call.body.tracesPerQuery = tracesPerQuery := by
  refine ⟨sendTraceFetchCall options env schemaId tracesPerQuery, ?_, rfl, rfl, rfl⟩
  cases fetchBehavior with
  | response ok text => cases ok <;> rfl
  | throwErr e => rfl

/-- Claim C2: an operation whose trace context is present when its envelope
step runs gets stamped with the module-level schema id current at that moment,
which is the hash delivered by the most recent schema activation before the
envelope event; schema activations happening after envelope time (for example
between envelope and dispatch) leave the stamped id unchanged. -/
theorem envelope_stamps_current_schemaId {α : Type}
    (stripIgnoredCharacters : String → String)
    (es1 es2 : List (CollectorEvent α)) (o : ℕ) (params : GraphQLParams)
    (c : ApolloUsageReportGraphqlContext α)
    (hc : alistFind (collectorRun stripIgnoredCharacters es1).traces o = some c)
    (h2 : ∀ e ∈ es2, isSchemaActivation e = true) :
    ∃ c', alistFind
        (collectorRun stripIgnoredCharacters
          (es1 ++ CollectorEvent.enveloped o params :: es2)).traces o = some c' ∧
      c'.schemaId = lastActivation es1 := by
  refine ⟨envelopeTraceCtx stripIgnoredCharacters
      (collectorRun stripIgnoredCharacters es1).schemaId params c, ?_, ?_⟩
  · have htr : (collectorRun stripIgnoredCharacters
        (es1 ++ CollectorEvent.enveloped o params :: es2)).traces =
        (collectorStep stripIgnoredCharacters (collectorRun stripIgnoredCharacters es1)
          (CollectorEvent.enveloped o params)).traces := by
      unfold collectorRun
      rw [List.foldl_append, List.foldl_cons]
      exact foldl_activations_traces _ _ _ h2
    rw [htr]
    exact collectorStep_enveloped_find _ _ _ _ _ hc
  · exact collectorRun_schemaId stripIgnoredCharacters es1

/-- Witness for C2: the hash `abc123` activates before the envelope event and
another activation follows it; the stamped id is still `abc123`. -/
theorem envelope_stamps_current_schemaId_witness :
    ∃ c', alistFind
        (collectorRun (fun s => s)
          ([CollectorEvent.traceCreated 0 (5 : ℕ),
              CollectorEvent.schemaActivated "abc123"] ++
            CollectorEvent.enveloped 0 { query := some "query Q", operationName := none } ::
              [CollectorEvent.schemaActivated "later-hash"])).traces 0 = some c' ∧
      c'.schemaId = lastActivation
        [CollectorEvent.traceCreated 0 (5 : ℕ), CollectorEvent.schemaActivated "abc123"] :=
  envelope_stamps_current_schemaId (fun s => s)
    [CollectorEvent.traceCreated 0 (5 : ℕ), CollectorEvent.schemaActivated "abc123"]
    [CollectorEvent.schemaActivated "later-hash"] 0
    { query := some "query Q", operationName := none } { trace := (5 : ℕ) }
    (by decide) (by decide)

/-- Claim C9: the module-level `schemaId` starts unset and is only assigned
when the asynchronous schema-hash promise of `onSchemaChange` resolves, so an
operation enveloped before the first activation has resolved gets `undefined`
stamped as its `schemaId`; dispatching that request then throws the
misformed-trace error even though the collector behaved as designed. -/
theorem envelope_before_first_activation_raises {α : Type}
    (stripIgnoredCharacters : String → String) (es1 : List (CollectorEvent α))
    (o : ℕ) (params : GraphQLParams) (c : ApolloUsageReportGraphqlContext α)
    (hna : ∀ e ∈ es1, isSchemaActivation e = false)
    (hc : alistFind (collectorRun stripIgnoredCharacters es1).traces o = some c) :
    ∃ c', alistFind
        (collectorRun stripIgnoredCharacters
          (es1 ++ [CollectorEvent.enveloped o params])).traces o = some c' ∧
      c'.schemaId = none ∧
      (onResultProcess false (some [c'])).thrown = some misformedTraceMessage := by
  have hsid : (collectorRun stripIgnoredCharacters es1).schemaId = none := by
    rw [collectorRun_schemaId]
    exact lastActivation_of_no_activation es1 hna
  have hfind := collectorStep_enveloped_find stripIgnoredCharacters
    (collectorRun stripIgnoredCharacters es1) o params c hc
  rw [hsid] at hfind
  refine ⟨envelopeTraceCtx stripIgnoredCharacters none params c, ?_, rfl, ?_⟩
  · have htr : (collectorRun stripIgnoredCharacters
        (es1 ++ [CollectorEvent.enveloped o params])).traces =
        (collectorStep stripIgnoredCharacters (collectorRun stripIgnoredCharacters es1)
          (CollectorEvent.enveloped o params)).traces := by
      unfold collectorRun
      rw [List.foldl_append, List.foldl_cons, List.foldl_nil]
    rw [htr]
    exact hfind
  · have herr := groupTracesGo_error_of_misformed
      [envelopeTraceCtx stripIgnoredCharacters none params c] []
      ⟨_, List.mem_singleton.mpr rfl, Or.inl rfl⟩
    simp [onResultProcess, groupTraces, herr]

/-- Witness for C9: a trace context exists but no activation has resolved when
the envelope event runs; the record carries no schema id and dispatch throws. -/
theorem envelope_before_first_activation_raises_witness :
    ∃ c', alistFind
        (collectorRun (fun s => s)
          ([CollectorEvent.traceCreated 0 (5 : ℕ)] ++
            [CollectorEvent.enveloped 0 { query := some "query Q", operationName := none }])).traces
        0 = some c' ∧
      c'.schemaId = none ∧
      (onResultProcess false (some [c'])).thrown = some misformedTraceMessage :=
  envelope_before_first_activation_raises (fun s => s)
    [CollectorEvent.traceCreated 0 (5 : ℕ)] 0
    { query := some "query Q", operationName := none } { trace := (5 : ℕ) }
    (by decide) (by decide)

/-- Claim C10: credential resolution order is asymmetric.  The initialization
presence check computes `env[APOLLO_KEY] || options.apiKey`, so the
environment variable is read first and an empty-string option counts as
absent, while the delivery task destructures `apiKey =
getEnvVar(APOLLO_KEY)` from the options, so a defined option wins and the
environment is only the fallback; with both set to different non-empty values
the initialization check resolves to the environment value while the sent
report carries the option value in its api-key header. -/
theorem credential_resolution_asymmetry
    (env : String → Option String) (options : ApolloUsageReportOptions)
    (e o : String) (he : env "APOLLO_KEY" = some e) (ho : options.apiKey = some o)
    (hene : e ≠ "") (hone : o ≠ "") (hdiff : e ≠ o) :
    getEnvVar env "APOLLO_KEY" options.apiKey = some e ∧
    (∀ (α : Type) (fetchBehavior : FetchBehavior) (schemaId : String)
        (tracesPerQuery : TracesPerQuery α),
      (sendTrace options env fetchBehavior schemaId tracesPerQuery).calls.map
        (fun call => call.xApiKey) = [some o]) ∧
    (∀ (options2 : ApolloUsageReportOptions),
      options2.apiKey = none →
      jsDefault options2.apiKey (getEnvVar env "APOLLO_KEY" none) = some e) ∧
    ∀ (env2 : String → Option String) (options2 : ApolloUsageReportOptions),
      env2 "APOLLO_KEY" = none → options2.apiKey = some "" →
      onYogaInit options2 env2 = Except.error
        "[ApolloUsageReport] Missing API key. Please provide one in plugin options or with \x27APOLLO_KEY\x27 environment variable." := by
  refine ⟨?_, ?_, ?_, ?_⟩
  · simp [getEnvVar, jsOr, truthy, he, ho, hene]
  · intro α fb schemaId tpq
    have hcall : ∀ call ∈ (sendTrace options env fb schemaId tpq).calls,
        call = sendTraceFetchCall options env schemaId tpq := by
      intro call hcallmem
      cases fb with
      | response ok text =>
        cases ok <;> simpa [sendTrace, sendTraceTry] using hcallmem
      | throwErr m => simpa [sendTrace, sendTraceTry] using hcallmem
    have hone_call : (sendTrace options env fb schemaId tpq).calls =
        [sendTraceFetchCall options env schemaId tpq] := by
      cases fb with
      | response ok text => cases ok <;> rfl
      | throwErr m => rfl
    rw [hone_call]
    simp [sendTraceFetchCall, jsDefault, ho]
  · intro options2 h2
    rw [h2]
    simp [jsDefault, getEnvVar, jsOr, truthy, he, hene]
  · intro env2 options2 h1 h2
    simp [onYogaInit, getEnvVar, jsOr, truthy, h1, h2]

/-- Witness for C10 with `APOLLO_KEY` set to `envkey` in the environment and
`optkey` in the options. -/
theorem credential_resolution_asymmetry_witness :
    getEnvVar (fun _ => some "envkey") "APOLLO_KEY"
        (({ apiKey := some "optkey" } : ApolloUsageReportOptions)).apiKey = some "envkey" ∧
    (∀ (α : Type) (fetchBehavior : FetchBehavior) (schemaId : String)
        (tracesPerQuery : TracesPerQuery α),
      (sendTrace { apiKey := some "optkey" } (fun _ => some "envkey") fetchBehavior
          schemaId tracesPerQuery).calls.map
        (fun call => call.xApiKey) = [some "optkey"]) ∧
    (∀ (options2 : ApolloUsageReportOptions),
      options2.apiKey = none →
      jsDefault options2.apiKey
        (getEnvVar (fun _ => some "envkey") "APOLLO_KEY" none) = some "envkey") ∧
    ∀ (env2 : String → Option String) (options2 : ApolloUsageReportOptions),
      env2 "APOLLO_KEY" = none → options2.apiKey = some "" →
      onYogaInit options2 env2 = Except.error
        "[ApolloUsageReport] Missing API key. Please provide one in plugin options or with \x27APOLLO_KEY\x27 environment variable." :=
  credential_resolution_asymmetry (fun _ => some "envkey") { apiKey := some "optkey" }
    "envkey" "optkey" rfl rfl (by decide) (by decide) (by decide)
